import Mathlib

/-!
Verification development for the WhatsApp interview-bot message pipeline.

The definitions below are a shallow embedding of the TypeScript source:
* `MemoryService` models `src/services/memory/memory.service.ts` (Redis-backed
  conversation store and lock manager; Redis lists are modelled as Lean lists
  with Redis index arithmetic made explicit).
* The action extractor and token estimator embed
  `src/services/ai/ai.service.ts` (`generateRecruiterResponse`,
  `estimateTokenUsage`), including a faithful model of the two JavaScript
  regular expressions and of strict JSON parsing.
* The webhook pipeline embeds `src/controllers/webhook.controller.ts`
  (`processMessage`, `handleSchedulingAction`) as state-passing functions
  over an explicit pipeline state, with the fallible external calls
  (model, WhatsApp sends, calendar, email, candidate update) driven by an
  oracle record describing the environment's behaviour for one event.
-/

namespace WhatsAppBot

/-- Chat roles, from `ChatMessage.role` in `src/types/ai.ts`. -/
inductive Role where
  | system
  | user
  | assistant
deriving DecidableEq, Repr

/-- A conversation turn (`ChatMessage` in `src/types/ai.ts`); timestamps are
modelled as natural numbers (milliseconds). -/
structure ChatMessage where
  role : Role
  content : String
  timestamp : Option Nat
deriving DecidableEq, Repr

/-- Redis index resolution: negative indices count from the end of the list. -/
def redisAbs (len : Nat) (i : Int) : Int :=
  if i < 0 then (len : Int) + i else i

/-- The sublist Redis keeps for `LTRIM key start stop` (equally, the sublist
`LRANGE key start stop` returns): indices are resolved with `redisAbs`, the
start is clamped at 0, the stop at `len - 1`, and a crossed range is empty. -/
def redisSlice (l : List α) (start stop : Int) : List α :=
  let len := l.length
  let s := max (redisAbs len start) 0
  let e := min (redisAbs len stop) ((len : Int) - 1)
  if s > e then [] else (l.drop s.toNat).take (e - s + 1).toNat

/-- The conversation store: one Redis list of turns per phone number; a key
with no record is the empty list, exactly as `LRANGE` on a missing key. -/
def ConvStore := String → List ChatMessage

/-- The store with no conversation records. -/
def emptyStore : ConvStore := fun _ => []

namespace MemoryService

/-- `MemoryService.addMessage` (memory.service.ts lines 45-63): fill in the
timestamp when absent (`message.timestamp ?? new Date()`), `RPUSH` the turn,
then `LTRIM key -maxHistory -1`.  (The TTL reset touches no list content and
is not modelled.) -/
def addMessage (maxHistory : Nat) (store : ConvStore) (phoneNumber : String)
    (message : ChatMessage) (now : Nat) : ConvStore :=
  fun k =>
    if k = phoneNumber then
      let messageWithTimestamp : ChatMessage :=
        { message with timestamp := some (message.timestamp.getD now) }
      redisSlice (store phoneNumber ++ [messageWithTimestamp]) (-(maxHistory : Int)) (-1)
    else store k

/-- `MemoryService.getConversationHistory` (memory.service.ts lines 68-78):
`LRANGE key -effectiveLimit -1` where the limit defaults to the configured
max history. -/
def getConversationHistory (maxHistory : Nat) (store : ConvStore)
    (phoneNumber : String) (limit : Option Nat) : List ChatMessage :=
  let effectiveLimit := limit.getD maxHistory
  redisSlice (store phoneNumber) (-(effectiveLimit : Int)) (-1)

/-- Lock store: the set of currently held Redis lock keys with their TTLs.
Time passage (TTL expiry) is not modelled: all claims below are about a
window in which no lock expires. -/
def LockStore := List (String × Nat)

/-- `MemoryService.acquireLock` (memory.service.ts lines 270-274):
`SET lock:key 1 EX ttl NX` — set-if-not-present with expiry; returns whether
the key was newly acquired. -/
def acquireLock (locks : LockStore) (key : String) (ttlSeconds : Nat) :
    Bool × LockStore :=
  let lockKey := "lock:" ++ key
  if (locks.map Prod.fst).contains lockKey then (false, locks)
  else (true, (lockKey, ttlSeconds) :: locks)

/-- `MemoryService.releaseLock` (memory.service.ts lines 279-282):
unconditional `DEL lock:key`. -/
def releaseLock (locks : LockStore) (key : String) : LockStore :=
  let lockKey := "lock:" ++ key
  locks.filter (fun e => !(e.fst == lockKey))

/-- Outcome of `withLock`: the critical section's value, the critical
section's rethrown exception, or the lock-timeout error thrown after
exhausting all attempts. -/
inductive WithLockResult (ε α : Type) where
  | ok (a : α)
  | fnError (e : ε)
  | lockTimeout
deriving DecidableEq, Repr

/-- `MemoryService.withLock` (memory.service.ts lines 287-306): up to
`maxAttempts` attempts to `acquireLock`; on success run the critical section
and release in a `finally`; rethrow its exception after releasing; after the
last failed attempt throw the lock-timeout error.  The critical section is a
thunk returning either a value or a thrown exception; the store is only
mutated by this caller during the loop (the poll sleep is not modelled). -/
def withLock (key : String) (ttl : Nat) (fn : Unit → Except ε α) :
    Nat → LockStore → WithLockResult ε α × LockStore
  | 0, locks => (.lockTimeout, locks)
  | Nat.succ n, locks =>
    let (acquired, locks1) := acquireLock locks key ttl
    if acquired then
      let r := fn ()
      let locks2 := releaseLock locks1 key
      (match r with
        | .ok a => .ok a
        | .error e => .fnError e, locks2)
    else
      withLock key ttl fn n locks

end MemoryService

/-- The last `n` elements of a list (what `LTRIM key -n -1` keeps for
`n ≥ 1`). -/
def takeLast (n : Nat) (l : List α) : List α :=
  l.drop (l.length - n)

/-! ### JavaScript string primitives

The pipeline's text handling is over JavaScript strings; the helpers below
model the string operations the source uses, over `List Char`. -/

/-- The whitespace class of JavaScript's `\s` (restricted to the ASCII
whitespace characters; the texts this code handles contain no Unicode
spaces). -/
def isJsWs (c : Char) : Bool :=
  c = ' ' || c = '\t' || c = '\n' || c = '\r' || c = '\x0b' || c = '\x0c'

/-- Drop a literal prefix, returning the remainder on success. -/
def dropLit : List Char → List Char → Option (List Char)
  | [], s => some s
  | _, [] => none
  | c :: cs, d :: ds => if c = d then dropLit cs ds else none

/-- Greedy `\s*`: skip the maximal whitespace run. -/
def skipWs (s : List Char) : List Char := s.dropWhile isJsWs

/-- JavaScript `String.prototype.trim`. -/
def jsTrim (s : String) : String :=
  String.mk (((s.data.dropWhile isJsWs).reverse.dropWhile isJsWs).reverse)

/-- Auxiliary for `jsSplit`: accumulates the current (reversed) segment. -/
def jsSplitAux (sep : Char) : List Char → List Char → List (List Char)
  | [], acc => [acc.reverse]
  | c :: rest, acc =>
    if c = sep then acc.reverse :: jsSplitAux sep rest []
    else jsSplitAux sep rest (c :: acc)

/-- JavaScript `String.prototype.split` with a one-character separator:
always returns at least one segment (`""` splits to `[""].`) -/
def jsSplit (sep : Char) (s : String) : List String :=
  (jsSplitAux sep s.data []).map String.mk

/-- JavaScript `Number(string)` on the strings this pipeline feeds it
(date/time components): whitespace-trimmed; the empty string is `0`; an
optionally signed digit run is its value; anything else is `NaN`, modelled
as `none`.  (Fractional and exponent literals never occur in `YYYY-MM-DD`
or `HH:MM` components and are not modelled.) -/
def jsNumber (s : String) : Option Int :=
  let t := (s.data.dropWhile isJsWs).reverse.dropWhile isJsWs |>.reverse
  match t with
  | [] => some 0
  | '-' :: ds =>
    if ds ≠ [] && ds.all (fun c => c.isDigit) then
      some (-(String.mk ds).toNat!)
    else none
  | '+' :: ds =>
    if ds ≠ [] && ds.all (fun c => c.isDigit) then
      some ((String.mk ds).toNat! : Int)
    else none
  | ds =>
    if ds.all (fun c => c.isDigit) then
      some ((String.mk ds).toNat! : Int)
    else none

/-- JavaScript `Array.prototype.join(' ')`. -/
def joinSpace : List String → String
  | [] => ""
  | [s] => s
  | s :: rest => s ++ " " ++ joinSpace rest

/-! ### The action-detection regular expressions

`AIService.generateRecruiterResponse` (ai.service.ts lines 531-543) uses

* the search `content.match` with pattern
  ``/```json\s*(\x7b[\s\S]*?"action"\s*:\s*"schedule_interview"[\s\S]*?\x7d)\s*```/``
  (leftmost match, lazy quantifiers), and
* the removal `content.replace` with global pattern
  ``/\n*```json[\s\S]*?```\n*/g`` followed by `.trim()`.

Both are embedded below with JavaScript's leftmost-match and
lazy/greedy-with-backtracking semantics.  Each greedy `\s*`/`\n*` in these
patterns is immediately followed by a non-whitespace literal, so greedy
matching with backtracking reduces to skipping the maximal run and then
requiring the literal. -/

/-- The sub-pattern `"action"\s*:\s*"schedule_interview"`: on success
returns the remainder after the discriminant. -/
def matchDisc (s : List Char) : Option (List Char) :=
  match dropLit "\"action\"".data s with
  | none => none
  | some s1 =>
    match skipWs s1 with
    | ':' :: s2 => dropLit "\"schedule_interview\"".data (skipWs s2)
    | _ => none

/-- After the group's closing brace, the pattern requires `\s*` then
the closing fence. -/
def closeAfterBrace (s : List Char) : Bool :=
  (dropLit "```".data (skipWs s)).isSome

/-- Lazy `[\s\S]*?\x7d` with the continuation check: finds the earliest
closing brace whose continuation (`\s*` then the closing fence) matches,
returning the remainder after that brace. -/
def matchTailB : List Char → Option (List Char)
  | [] => none
  | c :: rest =>
    if c = '}' && closeAfterBrace rest then some rest
    else matchTailB rest

/-- Discriminant at the current position, then `matchTailB`. -/
def matchDiscTail (s : List Char) : Option (List Char) :=
  match matchDisc s with
  | none => none
  | some s1 => matchTailB s1

/-- Lazy `[\s\S]*?` before the discriminant, with full backtracking:
expand by one character until the discriminant-and-tail matches. -/
def lazyA : List Char → Option (List Char)
  | [] => none
  | s@(_ :: rest) =>
    match matchDiscTail s with
    | some r => some r
    | none => lazyA rest

/-- The whole search pattern anchored at the current position; on success
returns the capture group (the `\x7b...\x7d` text). -/
def matchBlockAt (s : List Char) : Option (List Char) :=
  match dropLit "```json".data s with
  | none => none
  | some s1 =>
    match skipWs s1 with
    | '{' :: s3 =>
      match lazyA s3 with
      | none => none
      | some s4 => some ('{' :: s3.take (s3.length - s4.length))
    | _ => none

/-- `content.match(...)`: leftmost match of the search pattern; returns the
capture group. -/
def findBlock : List Char → Option (List Char)
  | [] => none
  | s@(_ :: rest) =>
    match matchBlockAt s with
    | some g => some g
    | none => findBlock rest

/-- Lazy `[\s\S]*?` before the closing fence of the removal pattern:
earliest closing fence, returning the remainder after it. -/
def lazyClose : List Char → Option (List Char)
  | [] => none
  | s@(_ :: rest) =>
    match dropLit "```".data s with
    | some r => some r
    | none => lazyClose rest

/-- The removal pattern `\n*```json[\s\S]*?```\n*` anchored at the current
position; on success returns the remainder after the match. -/
def matchRemoveAt (s : List Char) : Option (List Char) :=
  match dropLit "```json".data (s.dropWhile (fun c => c = '\n')) with
  | none => none
  | some s2 =>
    match lazyClose s2 with
    | none => none
    | some s3 => some (s3.dropWhile (fun c => c = '\n'))

/-- Fuelled scan for the global replace: at each position remove the
leftmost removal-pattern match (continuing after it, as JavaScript's
global replace does) or keep the character.  Each step consumes at least
one character, so fuel `s.length` always suffices. -/
def replaceScanF : Nat → List Char → List Char
  | 0, s => s
  | _ + 1, [] => []
  | n + 1, s@(c :: rest) =>
    match matchRemoveAt s with
    | some r => replaceScanF n r
    | none => c :: replaceScanF n rest

/-- `content.replace(/\n*```json[\s\S]*?```\n*/g, '')`. -/
def replaceScan (s : List Char) : List Char := replaceScanF s.length s

/-! ### Strict JSON parsing (`JSON.parse`)

`JSON.parse` is modelled by a fuelled recursive-descent parser for the JSON
grammar: it must accept exactly the texts `JSON.parse` accepts (in
particular it rejects trailing commas, unquoted keys, single quotes, bare
control characters in strings, and leading-zero numbers).  Number literals
are kept as their source text: no claim compares numeric values across
differently written literals. -/

/-- A parsed JSON value.  Object fields keep insertion order; `JSON.parse`
keeps the last occurrence of a duplicated key, which `jGet` respects. -/
inductive JValue where
  | null
  | bool (b : Bool)
  | num (lit : String)
  | str (s : String)
  | arr (elems : List JValue)
  | obj (fields : List (String × JValue))
deriving Repr

/-- JSON whitespace (strictly space, tab, newline, carriage return). -/
def isJsonWs (c : Char) : Bool :=
  c = ' ' || c = '\t' || c = '\n' || c = '\r'

/-- Skip JSON whitespace. -/
def skipJsonWs (s : List Char) : List Char := s.dropWhile isJsonWs

/-- Hexadecimal digit value (code-point arithmetic: digits, then the two
letter ranges). -/
def hexVal (c : Char) : Option Nat :=
  let n := c.toNat
  if 48 ≤ n && n ≤ 57 then some (n - 48)
  else if 97 ≤ n && n ≤ 102 then some (n - 87)
  else if 65 ≤ n && n ≤ 70 then some (n - 55)
  else none

/-- JSON string body (after the opening quote): returns the decoded
characters and the remainder after the closing quote.  Bare control
characters are rejected; the escapes are exactly JSON's. -/
def parseJsonStringAux : Nat → List Char → Option (List Char × List Char)
  | 0, _ => none
  | _ + 1, [] => none
  | n + 1, c :: rest =>
    if c = '"' then some ([], rest)
    else if c = '\\' then
      match rest with
      | [] => none
      | e :: rest2 =>
        let cont := fun (ch : Char) (r : List Char) =>
          (parseJsonStringAux n r).map (fun p => (ch :: p.1, p.2))
        if e = '"' then cont '"' rest2
        else if e = '\\' then cont '\\' rest2
        else if e = '/' then cont '/' rest2
        else if e = 'b' then cont '\x08' rest2
        else if e = 'f' then cont '\x0c' rest2
        else if e = 'n' then cont '\n' rest2
        else if e = 'r' then cont '\r' rest2
        else if e = 't' then cont '\t' rest2
        else if e = 'u' then
          match rest2 with
          | h1 :: h2 :: h3 :: h4 :: rest3 =>
            match hexVal h1, hexVal h2, hexVal h3, hexVal h4 with
            | some a, some b, some c2, some d =>
              cont (Char.ofNat (((a * 16 + b) * 16 + c2) * 16 + d)) rest3
            | _, _, _, _ => none
          | _ => none
        else none
    else if c.toNat < 0x20 then none
    else (parseJsonStringAux n rest).map (fun p => (c :: p.1, p.2))

/-- JSON number literal at the current position (sign, integer part with no
leading zero, optional fraction, optional exponent); returns the literal's
characters and the remainder. -/
def parseJsonNumber (s : List Char) : Option (List Char × List Char) :=
  let intPart : List Char → Option (List Char × List Char) := fun t =>
    match t with
    | '0' :: r => some (['0'], r)
    | c :: r =>
      if c.isDigit then
        let ds := r.takeWhile (fun d => d.isDigit)
        some (c :: ds, r.drop ds.length)
      else none
    | [] => none
  let fracPart : List Char → Option (List Char × List Char) := fun t =>
    match t with
    | '.' :: r =>
      let ds := r.takeWhile (fun d => d.isDigit)
      if ds = [] then none else some ('.' :: ds, r.drop ds.length)
    | _ => some ([], t)
  let expPart : List Char → Option (List Char × List Char) := fun t =>
    match t with
    | c :: r =>
      if c = 'e' || c = 'E' then
        let (sgn, r2) := match r with
          | '+' :: r2 => (['+'], r2)
          | '-' :: r2 => (['-'], r2)
          | _ => (([] : List Char), r)
        let ds := r2.takeWhile (fun d => d.isDigit)
        if ds = [] then none else some (c :: (sgn ++ ds), r2.drop ds.length)
      else some ([], t)
    | [] => some ([], t)
  let (neg, s1) := match s with
    | '-' :: r => (['-'], r)
    | _ => (([] : List Char), s)
  match intPart s1 with
  | none => none
  | some (ip, r1) =>
    match fracPart r1 with
    | none => none
    | some (fp, r2) =>
      match expPart r2 with
      | none => none
      | some (ep, r3) => some (neg ++ ip ++ fp ++ ep, r3)

mutual

/-- A JSON value at the current position (leading whitespace allowed),
returning the value and the remainder. -/
def parseValue : Nat → List Char → Option (JValue × List Char)
  | 0, _ => none
  | Nat.succ n, s =>
    match skipJsonWs s with
    | '"' :: rest =>
      (parseJsonStringAux (rest.length + 1) rest).map
        (fun p => (JValue.str (String.mk p.1), p.2))
    | '{' :: rest =>
      (match skipJsonWs rest with
        | '}' :: r => some (JValue.obj [], r)
        | s1 =>
          (parseMembers n s1).map (fun p => (JValue.obj p.1, p.2)))
    | '[' :: rest =>
      (match skipJsonWs rest with
        | ']' :: r => some (JValue.arr [], r)
        | s1 =>
          (parseElements n s1).map (fun p => (JValue.arr p.1, p.2)))
    | 't' :: rest => (dropLit "rue".data rest).map (fun r => (JValue.bool true, r))
    | 'f' :: rest => (dropLit "alse".data rest).map (fun r => (JValue.bool false, r))
    | 'n' :: rest => (dropLit "ull".data rest).map (fun r => (JValue.null, r))
    | s1 => (parseJsonNumber s1).map (fun p => (JValue.num (String.mk p.1), p.2))

/-- One or more `"key" : value` members, ending at the closing brace
(which is consumed).  A comma must be followed by another member, so a
trailing comma fails, as in `JSON.parse`. -/
def parseMembers : Nat → List Char → Option (List (String × JValue) × List Char)
  | 0, _ => none
  | Nat.succ n, s =>
    match s with
    | '"' :: rest =>
      match parseJsonStringAux (rest.length + 1) rest with
      | none => none
      | some (key, r1) =>
        match skipJsonWs r1 with
        | ':' :: r2 =>
          match parseValue n r2 with
          | none => none
          | some (v, r3) =>
            match skipJsonWs r3 with
            | ',' :: r4 =>
              (parseMembers n (skipJsonWs r4)).map
                (fun p => ((String.mk key, v) :: p.1, p.2))
            | '}' :: r4 => some ([(String.mk key, v)], r4)
            | _ => none
        | _ => none
    | _ => none

/-- One or more array elements, ending at the closing bracket (consumed). -/
def parseElements : Nat → List Char → Option (List JValue × List Char)
  | 0, _ => none
  | Nat.succ n, s =>
    match parseValue n s with
    | none => none
    | some (v, r1) =>
      match skipJsonWs r1 with
      | ',' :: r2 => (parseElements n r2).map (fun p => (v :: p.1, p.2))
      | ']' :: r2 => some ([v], r2)
      | _ => none

end

/-- `JSON.parse`: the whole text must be one JSON value surrounded only by
JSON whitespace; `none` is a thrown `SyntaxError`. -/
def jsonParse (s : String) : Option JValue :=
  match parseValue (s.length + 1) s.data with
  | some (v, rest) => if skipJsonWs rest = [] then some v else none
  | none => none

namespace AIService

/-- The action-extraction step of `generateRecruiterResponse`
(ai.service.ts lines 531-543): search for the leftmost fenced `json` block
carrying the `schedule_interview` discriminant; if its capture group parses
as JSON, the parsed object becomes the action and every fenced `json` block
is removed from the text (global replace) before trimming; if the group
fails to parse, the thrown `SyntaxError` is caught, the text is returned
unmodified, and no action is returned. -/
def extractAction (content : String) : String × Option JValue :=
  match findBlock content.data with
  | none => (content, none)
  | some g =>
    match jsonParse (String.mk g) with
    | some action => (jsTrim (String.mk (replaceScan content.data)), some action)
    | none => (content, none)

/-- `generateRecruiterResponse` seen from the pipeline: the model invocation
either yields raw text (then action extraction runs on it) or throws, which
the method rethrows as `AIError`. -/
def generateRecruiterResponse (modelOutcome : Except Unit String) :
    Except Unit (String × Option JValue) :=
  match modelOutcome with
  | .error e => .error e
  | .ok raw => .ok (extractAction raw)

/-- Token usage triple (`TokenUsage` in `src/types/ai.ts`). -/
structure TokenUsage where
  promptTokens : Nat
  completionTokens : Nat
  totalTokens : Nat
deriving DecidableEq, Repr

/-- `Math.ceil(chars / ratio)` for natural `chars` (exact for the sizes a
double represents exactly). -/
def jsMathCeilDiv (chars ratio : Nat) : Nat := (chars + ratio - 1) / ratio

/-- `AIService.estimateTokenUsage` (ai.service.ts lines 724-744): join the
history contents with spaces, estimate prompt and completion tokens as the
ceiling of the character counts divided by the fixed ratio 4, and total
them. -/
def estimateTokenUsage (systemPrompt : String) (history : List ChatMessage)
    (userMessage response : String) : TokenUsage :=
  let charToTokenRatio := 4
  let historyText := joinSpace (history.map (fun m => m.content))
  let promptTokens := jsMathCeilDiv
    (systemPrompt.length + historyText.length + userMessage.length) charToTokenRatio
  let completionTokens := jsMathCeilDiv response.length charToTokenRatio
  { promptTokens := promptTokens,
    completionTokens := completionTokens,
    totalTokens := promptTokens + completionTokens }

end AIService

/-! ### The webhook pipeline

`processMessage` and `handleSchedulingAction`
(webhook.controller.ts lines 58-251) are embedded as state-passing
functions.  A thrown JavaScript exception is `Except.error σ` carrying the
pipeline state at the throw point, so `catch` blocks resume from it. -/

/-- A parsed inbound WhatsApp message (`ParsedWhatsAppMessage`). -/
structure ParsedWhatsAppMessage where
  messageId : String
  fromAddr : String
  fromName : String
  content : String
  timestamp : Nat
deriving DecidableEq, Repr

/-- Message direction, from the Prisma schema. -/
inductive MsgDirection where
  | inbound
  | outbound
deriving DecidableEq, Repr

/-- A persisted message row (the fields the pipeline reads or writes). -/
structure MessageRecord where
  candidateId : String
  whatsappMessageId : Option String
  role : Role
  direction : MsgDirection
  content : String
deriving DecidableEq, Repr

/-- A candidate row (the fields the pipeline reads or writes). -/
structure Candidate where
  id : String
  phoneNumber : String
  name : String
  email : Option String
deriving DecidableEq, Repr

/-- The date/time/timezone components `handleSchedulingAction` computes
(webhook.controller.ts lines 169-177); `none` is JavaScript `NaN`.  The
`Date` built from them receives `month - 1`. -/
structure ScheduleParsed where
  year : Option Int
  month : Option Int
  day : Option Int
  hour : Option Int
  minute : Option Int
  timezone : JValue
deriving Repr

/-- One recorded call to `calendarService.scheduleInterview`. -/
structure CalendarCall where
  candidateId : String
  comps : ScheduleParsed
  attendee : Option JValue
deriving Repr

/-- The observable pipeline state: persisted rows, the conversation store,
the Redis lock store, and the externally visible calls made so far.  Each
model invocation records whether this conversation's lock was held at the
moment of the call. -/
structure PState where
  messages : List MessageRecord
  candidates : List Candidate
  convs : ConvStore
  locks : MemoryService.LockStore
  sent : List (String × String)
  modelCalls : List Bool
  markedRead : List String
  calendarCalls : List CalendarCall
  emailCalls : List String
  candidateUpdates : List String

/-- The environment's behaviour for one inbound event: the model call's
outcome and the success of each fallible external call, by call site. -/
structure Oracles where
  now : Nat
  modelRaw : Except Unit String
  sendOk : Bool
  sentId : Option String
  calendarOk : Bool
  meetLink : Option String
  emailOk : Bool
  updateOk : Bool
  confirmSendOk : Bool
  errorSendOk : Bool
  fallbackSendOk : Bool

namespace MessageRepository

/-- `MessageRepository.exists` (message.repository.ts lines 129-132): is
some persisted row keyed by this WhatsApp message id? -/
def recordExists (messages : List MessageRecord) (whatsappMessageId : String) : Bool :=
  messages.any (fun m => m.whatsappMessageId == some whatsappMessageId)

end MessageRepository

namespace CandidateRepository

/-- `CandidateRepository.findOrCreate` (candidate.repository.ts lines
98-105): return the row for this phone number, creating it (with a fresh
opaque id, modelled as derived from the phone number) if absent. -/
def findOrCreate (candidates : List Candidate) (phoneNumber name : String) :
    Candidate × List Candidate :=
  match candidates.find? (fun c => c.phoneNumber == phoneNumber) with
  | some c => (c, candidates)
  | none =>
    let c : Candidate :=
      { id := "cand-" ++ phoneNumber, phoneNumber := phoneNumber,
        name := name, email := none }
    (c, candidates ++ [c])

/-- `CandidateRepository.update` (candidate.repository.ts lines 110-117):
`findByIdOrThrow` then update; `none` is the thrown not-found error. -/
def update (candidates : List Candidate) (id : String)
    (email name : Option String) : Option (List Candidate) :=
  if candidates.any (fun c => c.id == id) then
    some (candidates.map (fun c =>
      if c.id == id then
        { c with email := email, name := name.getD c.name }
      else c))
  else none

end CandidateRepository

/-- Field access on the parsed action object (`action.date` etc.):
JavaScript property access on the `JSON.parse` result; a duplicated key
resolves to its last occurrence. -/
def jGet (v : JValue) (key : String) : Option JValue :=
  match v with
  | .obj fields => (fields.reverse.find? (fun f => f.1 == key)).map Prod.snd
  | _ => none

/-- The string carried by an optional JSON value, if it is a string. -/
def jStr? : Option JValue → Option String
  | some (.str s) => some s
  | _ => none

/-- The date/time parsing and defaulting of `handleSchedulingAction`
(webhook.controller.ts lines 169-177): split on the separator, coerce each
component with `Number`, and apply the `??` fallbacks, which fire only when
the indexed element is absent (never on `NaN`: `??` tests only
null/undefined).  The timezone fallback fires when the `timezone` property
is undefined or null. -/
def parseSchedule (date time : String) (timezoneField : Option JValue) :
    ScheduleParsed :=
  let dateParts := (jsSplit '-' date).map jsNumber
  let timeParts := (jsSplit ':' time).map jsNumber
  { year := (dateParts[0]?).getD (some 2024),
    month := (dateParts[1]?).getD (some 1),
    day := (dateParts[2]?).getD (some 1),
    hour := (timeParts[0]?).getD (some 9),
    minute := (timeParts[1]?).getD (some 0),
    timezone :=
      match timezoneField with
      | none => JValue.str "America/Mexico_City"
      | some JValue.null => JValue.str "America/Mexico_City"
      | some v => v }

/-- The fixed error reply of `handleSchedulingAction`'s catch block
(webhook.controller.ts lines 246-249). -/
def schedulingErrorText : String :=
  "Hubo un problema al agendar la entrevista. Por favor intenta de nuevo o contacta a nuestro equipo directamente."

/-- The WhatsApp confirmation message (webhook.controller.ts lines
228-238), abstracted to its fixed skeleton with the interpolated fields;
the `es-MX` locale rendering of the date and time is not modelled. -/
def confirmationText (action : JValue) (meetLink : Option String) : String :=
  "✅ ¡Listo! Tu entrevista ha sido agendada. Posición: "
    ++ ((jStr? (jGet action "positionTitle")).getD "undefined")
    ++ (match meetLink with
        | some link => " 📹 Link de Google Meet: " ++ link
        | none => "")
    ++ " Te envié un correo de confirmación a "
    ++ ((jStr? (jGet action "candidateEmail")).getD "undefined")

/-- The fixed fallback reply of `processMessage`'s catch block
(webhook.controller.ts lines 148-151). -/
def fallbackText : String :=
  "I apologize, but I'm having trouble processing your message. Please try again in a moment."

/-- `handleSchedulingAction` (webhook.controller.ts lines 161-251).  The
whole body is one `try`: parse the date/time fields (property access plus
`split`, which throws a `TypeError` unless the field is a string), call the
calendar gateway, then the email gateway, then the candidate update, then
the confirmation send — any throw jumps to the single catch, which sends
the fixed error reply (and itself rethrows if that send fails). -/
def handleSchedulingAction (o : Oracles) (phoneNumber candidateId : String)
    (action : JValue) (st : PState) : Except PState PState :=
  let tryBlock : Except PState PState :=
    match jStr? (jGet action "date"), jStr? (jGet action "time") with
    | some dateStr, some timeStr =>
      let comps := parseSchedule dateStr timeStr (jGet action "timezone")
      let st1 := { st with calendarCalls := st.calendarCalls ++
        [{ candidateId := candidateId, comps := comps,
           attendee := jGet action "candidateEmail" }] }
      if !o.calendarOk then .error st1
      else
        let st2 := { st1 with emailCalls := st1.emailCalls ++
          [(jStr? (jGet action "candidateEmail")).getD "undefined"] }
        if !o.emailOk then .error st2
        else
          match CandidateRepository.update st2.candidates candidateId
              (jStr? (jGet action "candidateEmail"))
              (jStr? (jGet action "candidateName")), o.updateOk with
          | some newCands, true =>
            let st3 := { st2 with
                         candidates := newCands,
                         candidateUpdates := st2.candidateUpdates ++ [candidateId] }
            if !o.confirmSendOk then .error st3
            else .ok { st3 with sent := st3.sent ++
              [(phoneNumber, confirmationText action o.meetLink)] }
          | _, _ => .error st2
    | _, _ => .error st
  match tryBlock with
  | .ok st1 => .ok st1
  | .error stAtThrow =>
    if o.errorSendOk then
      .ok { stAtThrow with sent := stAtThrow.sent ++
        [(phoneNumber, schedulingErrorText)] }
    else .error stAtThrow

/-- `processMessage` (webhook.controller.ts lines 58-156).  Dedup check and
early return; `markAsRead` (which swallows its own errors); find-or-create
the candidate; persist the inbound row; append the user turn to the
conversation store; load history; invoke the model (recording whether this
conversation's lock was held at that moment) and extract the action; append
the assistant turn; send the reply; persist the outbound row; dispatch the
scheduling action if present.  The outer catch sends the fixed fallback
text, swallowing even that send's failure, so the handler never throws. -/
def processMessage (maxHistory : Nat) (o : Oracles)
    (message : ParsedWhatsAppMessage) (st : PState) : PState :=
  let body : Except PState PState :=
    if MessageRepository.recordExists st.messages message.messageId then
      .ok st
    else
      let st1 := { st with markedRead := st.markedRead ++ [message.messageId] }
      let (candidate, cands) :=
        CandidateRepository.findOrCreate st1.candidates message.fromAddr message.fromName
      let st2 := { st1 with candidates := cands }
      let inboundRow : MessageRecord :=
        { candidateId := candidate.id,
          whatsappMessageId := some message.messageId,
          role := .user, direction := .inbound,
          content := message.content }
      let st3 := { st2 with messages := st2.messages ++ [inboundRow] }
      let userTurn : ChatMessage :=
        { role := .user, content := message.content,
          timestamp := some message.timestamp }
      let st4 := { st3 with
                   convs := MemoryService.addMessage maxHistory st3.convs
                     message.fromAddr userTurn o.now }
      let _history :=
        MemoryService.getConversationHistory maxHistory st4.convs message.fromAddr none
      let st5 := { st4 with modelCalls := st4.modelCalls ++
        [(st4.locks.map Prod.fst).contains ("lock:" ++ message.fromAddr)] }
      match AIService.generateRecruiterResponse o.modelRaw with
      | .error _ => .error st5
      | .ok (content, action) =>
        let assistantTurn : ChatMessage :=
          { role := .assistant, content := content, timestamp := some o.now }
        let st6 := { st5 with
                     convs := MemoryService.addMessage maxHistory st5.convs
                       message.fromAddr assistantTurn o.now }
        if !o.sendOk then .error st6
        else
          let st7 := { st6 with sent := st6.sent ++ [(message.fromAddr, content)] }
          let st8 := { st7 with messages := st7.messages ++
            [{ candidateId := candidate.id,
               whatsappMessageId := o.sentId,
               role := .assistant, direction := .outbound,
               content := content }] }
          match action with
          | none => .ok st8
          | some a => handleSchedulingAction o message.fromAddr candidate.id a st8
  match body with
  | .ok st1 => st1
  | .error stAtThrow =>
    if o.fallbackSendOk then
      { stAtThrow with sent := stAtThrow.sent ++ [(message.fromAddr, fallbackText)] }
    else stAtThrow

/-- The pipeline state an `Except`-valued step leaves behind, whether it
returned or threw. -/
def outState : Except PState PState → PState
  | .ok st => st
  | .error st => st

/-- The number of persisted inbound rows carrying a given WhatsApp message
id. -/
def countInbound (messages : List MessageRecord) (whatsappMessageId : String) : Nat :=
  (messages.filter (fun m =>
    m.whatsappMessageId == some whatsappMessageId && m.direction == MsgDirection.inbound)).length

/-- The turn actually stored by `addMessage`: the input turn with
`timestamp ?? new Date()` applied. -/
def stamp (p : ChatMessage × Nat) : ChatMessage :=
  { p.1 with timestamp := some (p.1.timestamp.getD p.2) }

/-- One `addMessage` step at the level of a single conversation's list. -/
def addTurnL (maxHistory : Nat) (l : List ChatMessage) (p : ChatMessage × Nat) :
    List ChatMessage :=
  redisSlice (l ++ [stamp p]) (-(maxHistory : Int)) (-1)

/-- A sequence of `addMessage` calls for one conversation, each with its
own wall-clock time. -/
def runAdds (maxHistory : Nat) (phoneNumber : String)
    (ps : List (ChatMessage × Nat)) (store : ConvStore) : ConvStore :=
  ps.foldl (fun s p => MemoryService.addMessage maxHistory s phoneNumber p.1 p.2) store

/-- The pipeline state before any event. -/
def emptyPState : PState :=
  { messages := [], candidates := [], convs := emptyStore, locks := [],
    sent := [], modelCalls := [], markedRead := [], calendarCalls := [],
    emailCalls := [], candidateUpdates := [] }

/-- A sample turn used in concrete store scenarios. -/
def c4Turn (i : Nat) : ChatMessage :=
  { role := .user, content := toString i, timestamp := some i }

/-- Six sample `addMessage` inputs (max history 1 plus 5). -/
def c4Turns : List (ChatMessage × Nat) :=
  (List.range 6).map (fun i => (c4Turn i, i))

/-- The spec's action-extraction round-trip example: visible text followed
by a fenced json block carrying the discriminant. -/
def c3SpecOutput : String :=
  "Great, see you then!\n\n```json\n\x7b\"action\":\"schedule_interview\",\"candidateName\":\"Ana\",\"candidateEmail\":\"a@x.com\",\"date\":\"2025-03-01\",\"time\":\"10:00\",\"positionTitle\":\"Engineer\"\x7d\n```"

/-- The parsed object of the spec's example block. -/
def c3SpecAction : JValue :=
  JValue.obj
    [("action", JValue.str "schedule_interview"),
     ("candidateName", JValue.str "Ana"),
     ("candidateEmail", JValue.str "a@x.com"),
     ("date", JValue.str "2025-03-01"),
     ("time", JValue.str "10:00"),
     ("positionTitle", JValue.str "Engineer")]

/-- A model output whose fenced block carries the discriminant but fails
strict JSON parsing (trailing comma). -/
def c3Invalid : String :=
  "x\n```json\n\x7b\"action\":\"schedule_interview\",\x7d\n```"

/-- The capture group the search pattern finds inside `c3Invalid`. -/
def c3InvalidGroup : List Char :=
  ("\x7b\"action\":\"schedule_interview\",\x7d").data

/-- A model output with two fenced json blocks both carrying the
discriminant, separated and followed by plain text. -/
def c7Raw : String :=
  "A\n\n```json\n\x7b\"action\":\"schedule_interview\",\"candidateName\":\"Ana\"\x7d\n```\nmid\n```json\n\x7b\"action\":\"schedule_interview\",\"candidateName\":\"Bob\"\x7d\n```\ntail"

/-- The first block's parsed object in `c7Raw`. -/
def c7AnaAction : JValue :=
  JValue.obj
    [("action", JValue.str "schedule_interview"),
     ("candidateName", JValue.str "Ana")]

/-- What the visible text of `c7Raw` would be if only the recognized first
block (with its surrounding blank lines) were removed: the trailing block
kept verbatim. -/
def c7OnlyFirstRemoved : String :=
  "Amid\n```json\n\x7b\"action\":\"schedule_interview\",\"candidateName\":\"Bob\"\x7d\n```\ntail"

/-- The inbound row `processMessage` persists for a message
(`createUserMessage`). -/
def mkInboundRow (candidateId : String) (msg : ParsedWhatsAppMessage) :
    MessageRecord :=
  { candidateId := candidateId, whatsappMessageId := some msg.messageId,
    role := .user, direction := .inbound, content := msg.content }

/-- The outbound row `processMessage` persists for the assistant reply
(`createAssistantMessage`). -/
def mkOutboundRow (candidateId : String) (sentId : Option String)
    (content : String) : MessageRecord :=
  { candidateId := candidateId, whatsappMessageId := sentId,
    role := .assistant, direction := .outbound, content := content }

/-- A sample inbound message (C1 scenario). -/
def c1Msg : ParsedWhatsAppMessage :=
  { messageId := "wamid.c1", fromAddr := "+5215551", fromName := "Ana",
    content := "Hi", timestamp := 100 }

/-- An all-success environment whose model output carries no action block
(C1 scenario). -/
def c1Oracle : Oracles :=
  { now := 200, modelRaw := .ok "Hola", sendOk := true, sentId := some "out.c1",
    calendarOk := true, meetLink := none, emailOk := true, updateOk := true,
    confirmSendOk := true, errorSendOk := true, fallbackSendOk := true }

/-- A well-formed schedule action object. -/
def c2Action : JValue :=
  JValue.obj
    [("action", JValue.str "schedule_interview"),
     ("candidateName", JValue.str "Ana"),
     ("candidateEmail", JValue.str "a@x.com"),
     ("date", JValue.str "2025-03-01"),
     ("time", JValue.str "10:00"),
     ("positionTitle", JValue.str "Engineer")]

/-- An environment in which the calendar gateway throws but every send
succeeds (C2 scenario). -/
def c2OracleCalFail : Oracles :=
  { now := 200, modelRaw := .ok "ok", sendOk := true, sentId := none,
    calendarOk := false, meetLink := none, emailOk := true, updateOk := true,
    confirmSendOk := true, errorSendOk := true, fallbackSendOk := true }

/-- A sample inbound message (C5 scenario). -/
def c5Msg : ParsedWhatsAppMessage :=
  { messageId := "wamid.c5", fromAddr := "+5215555", fromName := "Ana",
    content := "Hi, I am Ana", timestamp := 50 }

/-- An all-success environment (C5 scenario). -/
def c5Oracle : Oracles :=
  { now := 60, modelRaw := .ok "Hola Ana", sendOk := true, sentId := some "out.c5",
    calendarOk := true, meetLink := none, emailOk := true, updateOk := true,
    confirmSendOk := true, errorSendOk := true, fallbackSendOk := true }

/-- A sample inbound message (C6 scenario). -/
def c6Msg : ParsedWhatsAppMessage :=
  { messageId := "wamid.c6", fromAddr := "+5215556", fromName := "Eva",
    content := "Hello", timestamp := 70 }

/-- An environment in which the model invocation throws and the fallback
send succeeds (C6 scenario). -/
def c6Oracle : Oracles :=
  { now := 80, modelRaw := .error (), sendOk := true, sentId := none,
    calendarOk := true, meetLink := none, emailOk := true, updateOk := true,
    confirmSendOk := true, errorSendOk := true, fallbackSendOk := true }

/-! ### Helper lemmas -/

theorem takeLast_length_le (n : Nat) (l : List α) : (takeLast n l).length ≤ n := by
  simp only [takeLast, List.length_drop]
  omega

theorem takeLast_of_length_le {n : Nat} {l : List α} (h : l.length ≤ n) :
    takeLast n l = l := by
  simp [takeLast, Nat.sub_eq_zero_of_le h]

theorem takeLast_subset (n : Nat) (l : List α) : takeLast n l ⊆ l :=
  List.drop_subset _ l

theorem redisSlice_neg {α : Type} (N : Nat) (hN : 1 ≤ N) (l : List α) :
    redisSlice l (-(N : Int)) (-1) = takeLast N l := by
  simp only [redisSlice, redisAbs, takeLast]
  rcases Nat.eq_zero_or_pos l.length with h0 | hpos
  · rw [List.eq_nil_of_length_eq_zero h0]
    simp
  · have hneg1 : ((-1 : Int) < 0) := by omega
    have hnegN : ((-(N : Int)) < 0) := by omega
    rw [if_pos hnegN, if_pos hneg1]
    have hcond : ¬ (max ((l.length : Int) + -(N : Int)) 0 >
        min ((l.length : Int) + -1) ((l.length : Int) - 1)) := by
      omega
    rw [if_neg hcond]
    have hs : (max ((l.length : Int) + -(N : Int)) 0).toNat = l.length - N := by
      omega
    have he : (min ((l.length : Int) + -1) ((l.length : Int) - 1)
        - max ((l.length : Int) + -(N : Int)) 0 + 1).toNat
        = l.length - (l.length - N) := by
      omega
    rw [hs, he]
    exact List.take_of_length_le (by simp)

theorem takeLast_snoc (N : Nat) (l : List α) (m : α) :
    takeLast N (takeLast N l ++ [m]) = takeLast N (l ++ [m]) := by
  rcases Nat.lt_or_ge l.length N with h | h
  · rw [takeLast_of_length_le (Nat.le_of_lt h)]
  · rcases Nat.eq_zero_or_pos N with h0 | h1
    · subst h0
      simp [takeLast]
    · simp only [takeLast, List.length_append, List.length_drop, List.length_cons,
        List.length_nil]
      rw [List.drop_append_eq_append_drop, List.drop_append_eq_append_drop,
        List.drop_drop]
      simp only [List.length_drop]
      congr 1
      · congr 1
        omega
      · congr 1
        omega

theorem addMessage_apply (maxHistory : Nat) (store : ConvStore)
    (phoneNumber : String) (m : ChatMessage) (now : Nat) :
    (MemoryService.addMessage maxHistory store phoneNumber m now) phoneNumber =
      addTurnL maxHistory (store phoneNumber) (m, now) := by
  simp [MemoryService.addMessage, addTurnL, stamp]

theorem addMessage_other (maxHistory : Nat) (store : ConvStore)
    (phoneNumber k : String) (m : ChatMessage) (now : Nat) (hk : k ≠ phoneNumber) :
    (MemoryService.addMessage maxHistory store phoneNumber m now) k = store k := by
  simp [MemoryService.addMessage, hk]

theorem addTurnL_eq_takeLast {maxHistory : Nat} (hN : 1 ≤ maxHistory)
    (l : List ChatMessage) (p : ChatMessage × Nat) :
    addTurnL maxHistory l p = takeLast maxHistory (l ++ [stamp p]) := by
  simp [addTurnL, redisSlice_neg maxHistory hN]

theorem runAdds_apply (maxHistory : Nat) (phoneNumber : String)
    (ps : List (ChatMessage × Nat)) (store : ConvStore) :
    (runAdds maxHistory phoneNumber ps store) phoneNumber =
      ps.foldl (addTurnL maxHistory) (store phoneNumber) := by
  induction ps generalizing store with
  | nil => rfl
  | cons p ps ih =>
    simp only [runAdds, List.foldl_cons] at *
    rw [ih, addMessage_apply]

theorem foldl_addTurnL {maxHistory : Nat} (hN : 1 ≤ maxHistory)
    (ps : List (ChatMessage × Nat)) (l : List ChatMessage) :
    ps.foldl (addTurnL maxHistory) (takeLast maxHistory l) =
      takeLast maxHistory (l ++ ps.map stamp) := by
  induction ps generalizing l with
  | nil => simp
  | cons p ps ih =>
    simp only [List.foldl_cons, List.map_cons]
    rw [addTurnL_eq_takeLast hN, takeLast_snoc, ih (l ++ [stamp p])]
    simp

theorem filter_keep_of_not_held {locks : MemoryService.LockStore} {key : String}
    (h : (locks.map Prod.fst).contains ("lock:" ++ key) = false) :
    locks.filter (fun e => !(e.fst == "lock:" ++ key)) = locks := by
  rw [List.filter_eq_self]
  intro e he
  have hmem : e.fst ∈ locks.map Prod.fst := List.mem_map_of_mem _ he
  have hnot : ("lock:" ++ key) ∉ locks.map Prod.fst := by simpa using h
  simp only [Bool.not_eq_true', beq_eq_false_iff_ne]
  intro heq
  exact hnot (heq ▸ hmem)

theorem releaseLock_of_not_held {locks : MemoryService.LockStore} {key : String}
    (h : (locks.map Prod.fst).contains ("lock:" ++ key) = false) :
    MemoryService.releaseLock locks key = locks := by
  unfold MemoryService.releaseLock
  dsimp only
  exact filter_keep_of_not_held h

/-! ### Claim theorems -/

/-- C8: `withLock` releases the lock on every exit path of the critical
section — when the key is free, one `withLock` run with at least one
attempt returns exactly the critical section's outcome (value, or rethrown
exception) and leaves the lock store as it found it, the lock released in
the `finally` in both cases; when the key is already held, all attempts
fail and `withLock` throws the lock-timeout error without ever running the
critical section (the result is the same for every critical section `fn`);
and `acquireLock` is set-if-not-present-with-expiry: it returns `false`
exactly when the key is already held (leaving the store unchanged), and on
a fresh key returns `true` having recorded the key with its TTL. -/
theorem withLock_spec {ε α : Type} (key : String) (ttl : Nat)
    (locks : MemoryService.LockStore) (fn : Unit → Except ε α) (n : Nat) :
    ((locks.map Prod.fst).contains ("lock:" ++ key) = true →
      MemoryService.withLock key ttl fn n locks = (.lockTimeout, locks))
    ∧ ((locks.map Prod.fst).contains ("lock:" ++ key) = false →
      MemoryService.withLock key ttl fn (n + 1) locks =
        ((match fn () with
          | Except.ok a => MemoryService.WithLockResult.ok a
          | Except.error e => MemoryService.WithLockResult.fnError e), locks))
    ∧ ((MemoryService.acquireLock locks key ttl).1 =
        !((locks.map Prod.fst).contains ("lock:" ++ key)))
    ∧ ((locks.map Prod.fst).contains ("lock:" ++ key) = false →
      (MemoryService.acquireLock locks key ttl).2 = ("lock:" ++ key, ttl) :: locks)
    ∧ ((locks.map Prod.fst).contains ("lock:" ++ key) = true →
      (MemoryService.acquireLock locks key ttl).2 = locks) := by
  refine ⟨?_, ?_, ?_, ?_, ?_⟩
  · intro h
    induction n with
    | zero => rfl
    | succ n ih =>
      unfold MemoryService.withLock MemoryService.acquireLock
      dsimp only
      rw [h]
      simpa using ih
  · intro h
    have hrel : MemoryService.releaseLock (("lock:" ++ key, ttl) :: locks) key =
        locks := by
      unfold MemoryService.releaseLock
      dsimp only
      rw [List.filter_cons]
      simp only [BEq.refl, Bool.not_true, Bool.false_eq_true, if_false]
      exact filter_keep_of_not_held h
    unfold MemoryService.withLock MemoryService.acquireLock
    dsimp only
    rw [h]
    simp only [Bool.false_eq_true, if_false, if_true]
    rw [hrel]
  · unfold MemoryService.acquireLock
    dsimp only
    cases h : (locks.map Prod.fst).contains ("lock:" ++ key) <;> simp [h]
  · intro h
    unfold MemoryService.acquireLock
    dsimp only
    rw [h]
    rfl
  · intro h
    unfold MemoryService.acquireLock
    dsimp only
    rw [h]
    rfl

/-- Witness for `withLock_spec`: on a store holding an unrelated lock, the
key `conv` is free, one attempt runs the critical section and restores the
store; with `lock:conv` held, three attempts time out. -/
theorem withLock_spec_witness :
    ((([("lock:other", 30)] : MemoryService.LockStore).map Prod.fst).contains
        ("lock:" ++ "conv") = false)
    ∧ MemoryService.withLock "conv" 30 (fun _ => (Except.ok 42 : Except Unit Nat))
        (49 + 1) [("lock:other", 30)] =
        (MemoryService.WithLockResult.ok 42, [("lock:other", 30)])
    ∧ ((([("lock:conv", 30)] : MemoryService.LockStore).map Prod.fst).contains
        ("lock:" ++ "conv") = true)
    ∧ MemoryService.withLock "conv" 30 (fun _ => (Except.ok 42 : Except Unit Nat))
        3 [("lock:conv", 30)] =
        (MemoryService.WithLockResult.lockTimeout, [("lock:conv", 30)]) := by
  refine ⟨by decide, ?_, by decide, ?_⟩
  · exact (withLock_spec "conv" 30 [("lock:other", 30)]
      (fun _ => (Except.ok 42 : Except Unit Nat)) 49).2.1 (by decide)
  · exact (withLock_spec "conv" 30 [("lock:conv", 30)]
      (fun _ => (Except.ok 42 : Except Unit Nat)) 3).1 (by decide)

/-- C4 (amended): for every configured max history `N ≥ 1`, every mutation
leaves at most `N` turns stored; a sequence of `addMessage` calls from an
empty store stores exactly the newest `N` stamped turns in insertion order
(trimming only from the head); appending `N + 5` turns makes
`getConversationHistory` return exactly the newest `N` turns — the stamped
input sequence with the oldest 5 dropped; and reading an identifier with no
record returns the empty sequence rather than an error. -/
theorem conversationStore_bound {maxHistory : Nat} (hN : 1 ≤ maxHistory) :
    (∀ (store : ConvStore) (phoneNumber : String) (m : ChatMessage) (now : Nat),
      ((MemoryService.addMessage maxHistory store phoneNumber m now) phoneNumber).length
        ≤ maxHistory)
    ∧ (∀ (phoneNumber : String) (ps : List (ChatMessage × Nat)),
        (runAdds maxHistory phoneNumber ps emptyStore) phoneNumber
          = takeLast maxHistory (ps.map stamp))
    ∧ (∀ (phoneNumber : String) (ps : List (ChatMessage × Nat)),
        ps.length = maxHistory + 5 →
        MemoryService.getConversationHistory maxHistory
            (runAdds maxHistory phoneNumber ps emptyStore) phoneNumber none
          = (ps.map stamp).drop 5)
    ∧ (∀ phoneNumber : String,
        MemoryService.getConversationHistory maxHistory emptyStore phoneNumber none
          = []) := by
  have hrun : ∀ (phoneNumber : String) (ps : List (ChatMessage × Nat)),
      (runAdds maxHistory phoneNumber ps emptyStore) phoneNumber
        = takeLast maxHistory (ps.map stamp) := by
    intro phoneNumber ps
    rw [runAdds_apply]
    have h0 : emptyStore phoneNumber = takeLast maxHistory ([] : List ChatMessage) := by
      simp [takeLast, emptyStore]
    rw [h0, foldl_addTurnL hN]
    simp
  refine ⟨?_, hrun, ?_, ?_⟩
  · intro store phoneNumber m now
    rw [addMessage_apply, addTurnL_eq_takeLast hN]
    exact takeLast_length_le _ _
  · intro phoneNumber ps hlen
    unfold MemoryService.getConversationHistory
    dsimp only [Option.getD_none]
    rw [hrun, redisSlice_neg maxHistory hN]
    rw [takeLast_of_length_le (takeLast_length_le _ _)]
    simp [takeLast, hlen]
  · intro phoneNumber
    unfold MemoryService.getConversationHistory
    dsimp only [Option.getD_none]
    rw [redisSlice_neg maxHistory hN]
    simp [takeLast, emptyStore]

/-- Counterexample to C4 as stated: with the configuration value
`maxConversationHistory = 0` (accepted by the env schema, which puts no
lower bound on `MAX_CONVERSATION_HISTORY`), `LTRIM key -0 -1` is
`LTRIM key 0 -1`, which trims nothing, so a single `addMessage` leaves one
stored turn — more than `maxConversationHistory`. -/
theorem conversationStore_bound_fails_at_zero :
    ¬ (∀ (maxHistory : Nat) (store : ConvStore) (phoneNumber : String)
        (m : ChatMessage) (now : Nat),
        ((MemoryService.addMessage maxHistory store phoneNumber m now) phoneNumber).length
          ≤ maxHistory) := by
  intro h
  have h1 := h 0 emptyStore "p" { role := .user, content := "a", timestamp := none } 0
  have h2 : ((MemoryService.addMessage 0 emptyStore "p"
      { role := .user, content := "a", timestamp := none } 0) "p").length = 1 := rfl
  omega

/-- Witness for `conversationStore_bound`: max history 1, six turns
appended, history returns exactly the newest turn. -/
theorem conversationStore_bound_witness :
    ((MemoryService.addMessage 1 emptyStore "p" (c4Turn 0) 0) "p").length ≤ 1
    ∧ MemoryService.getConversationHistory 1 (runAdds 1 "p" c4Turns emptyStore)
        "p" none = (c4Turns.map stamp).drop 5 := by
  refine ⟨(conversationStore_bound (by omega)).1 emptyStore "p" (c4Turn 0) 0, ?_⟩
  exact (conversationStore_bound (by omega)).2.2.1 "p" c4Turns (by rfl)

theorem jsMathCeilDiv_eq_ceil (a : Nat) :
    AIService.jsMathCeilDiv a 4 = ⌈(a : ℚ) / 4⌉₊ := by
  unfold AIService.jsMathCeilDiv
  rcases Nat.eq_zero_or_pos a with h0 | hpos
  · subst h0
    simp
  · have hq1 : 4 * ((a + 4 - 1) / 4) ≤ a + 3 := by omega
    have hq2 : a + 3 < 4 * ((a + 4 - 1) / 4) + 4 := by omega
    have hq3 : 1 ≤ (a + 4 - 1) / 4 := by omega
    symm
    rw [Nat.ceil_eq_iff (by omega)]
    constructor
    · rw [lt_div_iff₀ (by norm_num : (0 : ℚ) < 4)]
      have hnat : ((a + 4 - 1) / 4 - 1) * 4 < a := by omega
      exact_mod_cast hnat
    · rw [div_le_iff₀ (by norm_num : (0 : ℚ) < 4)]
      have hnat : a ≤ ((a + 4 - 1) / 4) * 4 := by omega
      exact_mod_cast hnat

theorem jsMathCeilDiv_mono {a b : Nat} (h : a ≤ b) :
    AIService.jsMathCeilDiv a 4 ≤ AIService.jsMathCeilDiv b 4 :=
  Nat.div_le_div_right (by omega)

/-- C9: `estimateTokenUsage` computes the prompt estimate as the ceiling of
the summed character count (system prompt, space-joined history contents,
user message) divided by the fixed ratio 4, the completion estimate as the
ceiling of the response's character count divided by 4, and total = prompt
+ completion; each estimate is monotone in the character length of every
input.  Determinism is immediate: the embedding is a pure function of its
arguments, as the source method reads no other state. -/
theorem estimateTokenUsage_spec :
    (∀ (s : String) (h : List ChatMessage) (u r : String),
      (AIService.estimateTokenUsage s h u r).totalTokens =
        (AIService.estimateTokenUsage s h u r).promptTokens +
          (AIService.estimateTokenUsage s h u r).completionTokens)
    ∧ (∀ (s : String) (h : List ChatMessage) (u r : String),
      (AIService.estimateTokenUsage s h u r).promptTokens =
        ⌈((s.length + (joinSpace (h.map (fun m => m.content))).length + u.length : Nat) : ℚ) / 4⌉₊)
    ∧ (∀ (s : String) (h : List ChatMessage) (u r : String),
      (AIService.estimateTokenUsage s h u r).completionTokens =
        ⌈((r.length : Nat) : ℚ) / 4⌉₊)
    ∧ (∀ (s₁ s₂ : String) (h : List ChatMessage) (u r : String),
      s₁.length ≤ s₂.length →
      (AIService.estimateTokenUsage s₁ h u r).promptTokens ≤
        (AIService.estimateTokenUsage s₂ h u r).promptTokens)
    ∧ (∀ (s : String) (h₁ h₂ : List ChatMessage) (u r : String),
      (joinSpace (h₁.map (fun m => m.content))).length ≤
          (joinSpace (h₂.map (fun m => m.content))).length →
      (AIService.estimateTokenUsage s h₁ u r).promptTokens ≤
        (AIService.estimateTokenUsage s h₂ u r).promptTokens)
    ∧ (∀ (s : String) (h : List ChatMessage) (u₁ u₂ r : String),
      u₁.length ≤ u₂.length →
      (AIService.estimateTokenUsage s h u₁ r).promptTokens ≤
        (AIService.estimateTokenUsage s h u₂ r).promptTokens)
    ∧ (∀ (s : String) (h : List ChatMessage) (u r₁ r₂ : String),
      r₁.length ≤ r₂.length →
      (AIService.estimateTokenUsage s h u r₁).completionTokens ≤
        (AIService.estimateTokenUsage s h u r₂).completionTokens) := by
  refine ⟨fun s h u r => rfl, fun s h u r => jsMathCeilDiv_eq_ceil _,
    fun s h u r => jsMathCeilDiv_eq_ceil _, ?_, ?_, ?_, ?_⟩
  · intro s₁ s₂ h u r hle
    exact jsMathCeilDiv_mono (by omega)
  · intro s h₁ h₂ u r hle
    exact jsMathCeilDiv_mono (by omega)
  · intro s h u₁ u₂ r hle
    exact jsMathCeilDiv_mono (by omega)
  · intro s h u r₁ r₂ hle
    exact jsMathCeilDiv_mono hle

/-- Witness for `estimateTokenUsage_spec`: the monotonicity conjuncts
applied at concrete inputs. -/
theorem estimateTokenUsage_spec_witness :
    ("ab".length ≤ "abcd".length
      ∧ (AIService.estimateTokenUsage "ab" [] "u" "r").promptTokens ≤
          (AIService.estimateTokenUsage "abcd" [] "u" "r").promptTokens)
    ∧ ("r".length ≤ "rrrrr".length
      ∧ (AIService.estimateTokenUsage "s" [] "u" "r").completionTokens ≤
          (AIService.estimateTokenUsage "s" [] "u" "rrrrr").completionTokens) :=
  ⟨⟨by decide, estimateTokenUsage_spec.2.2.2.1 "ab" "abcd" [] "u" "r" (by decide)⟩,
   ⟨by decide, estimateTokenUsage_spec.2.2.2.2.2.2 "s" [] "u" "r" "rrrrr" (by decide)⟩⟩

set_option maxRecDepth 100000

/-- C3: on the spec's example output, extraction yields the visible text
with the block and its surrounding blank lines removed and the parsed
object as the action; and, in general, whenever the search pattern finds a
fenced block whose capture group fails strict JSON parsing, the extractor
does not throw (it is a total function), returns the original text
unmodified, and returns no action. -/
theorem extractAction_roundTrip :
    AIService.extractAction c3SpecOutput = ("Great, see you then!", some c3SpecAction)
    ∧ (∀ (content : String) (g : List Char),
        findBlock content.data = some g →
        jsonParse (String.mk g) = none →
        AIService.extractAction content = (content, none)) := by
  constructor
  · rfl
  · intro content g hfind hparse
    unfold AIService.extractAction
    rw [hfind]
    dsimp only
    rw [hparse]

/-- Witness for `extractAction_roundTrip`: the invalid-JSON branch applied
to a concrete block with a trailing comma. -/
theorem extractAction_roundTrip_witness :
    findBlock c3Invalid.data = some c3InvalidGroup
    ∧ jsonParse (String.mk c3InvalidGroup) = none
    ∧ AIService.extractAction c3Invalid = (c3Invalid, none) :=
  ⟨rfl, rfl, extractAction_roundTrip.2 c3Invalid c3InvalidGroup rfl rfl⟩

/-- Counterexample to C7 as stated: on a model output with two
discriminant-carrying fenced blocks, the first block's object becomes the
action, but the removal is the global replace
`content.replace(/\n*` + "```" + `json[\s\S]*?` + "```" + `\n*\x2fg, '')`,
which strips every fenced json block — the visible text is not the claimed
text in which only the recognized first block was removed and the trailing
block kept. -/
theorem extractAction_removes_all_blocks :
    AIService.extractAction c7Raw = ("Amidtail", some c7AnaAction)
    ∧ (AIService.extractAction c7Raw).1 ≠ c7OnlyFirstRemoved := by
  constructor
  · rfl
  · intro hcontra
    have h1 : (AIService.extractAction c7Raw).1 = "Amidtail" := rfl
    rw [h1] at hcontra
    exact absurd hcontra (by decide)

/-- C7 (amended): at most one action is recognized per message and it is
always the parse of the leftmost match's capture group (trailing blocks
never contribute an action); but the removal strips every fenced json
block from the visible text, not only the recognized one — on `c7Raw` both
blocks disappear. -/
theorem extractAction_first_match_wins :
    (∀ content : String,
      (AIService.extractAction content).2 =
        (findBlock content.data).bind (fun g => jsonParse (String.mk g)))
    ∧ AIService.extractAction c7Raw = ("Amidtail", some c7AnaAction) := by
  constructor
  · intro content
    unfold AIService.extractAction
    cases hfind : findBlock content.data with
    | none => rfl
    | some g =>
      dsimp only [Option.some_bind]
      cases hparse : jsonParse (String.mk g) with
      | none => rfl
      | some v => rfl
  · rfl

theorem hsa_preserves (o : Oracles) (p c : String) (a : JValue) (st : PState) :
    (outState (handleSchedulingAction o p c a st)).messages = st.messages
    ∧ (outState (handleSchedulingAction o p c a st)).modelCalls = st.modelCalls
    ∧ (outState (handleSchedulingAction o p c a st)).locks = st.locks
    ∧ (outState (handleSchedulingAction o p c a st)).markedRead = st.markedRead
    ∧ (outState (handleSchedulingAction o p c a st)).convs = st.convs := by
  unfold handleSchedulingAction outState
  dsimp only
  cases hjd : jStr? (jGet a "date") <;> cases hjt : jStr? (jGet a "time") <;>
    cases hes : o.errorSendOk <;> cases hc : o.calendarOk <;>
    cases he : o.emailOk <;>
    cases hu : CandidateRepository.update st.candidates c
      (jStr? (jGet a "candidateEmail")) (jStr? (jGet a "candidateName")) <;>
    cases huo : o.updateOk <;> cases hcs : o.confirmSendOk <;>
    simp_all

/-- C2 (amended): the whole scheduling dispatch shares one `try`/`catch`,
so when the calendar gateway throws, the email gateway is NOT attempted
(the email call count grows exactly when the calendar call succeeded); in
every case — calendar failure, email failure, update failure, confirmation
send failure — as long as the catch's own send succeeds, the handler
returns normally having sent exactly one reply (the confirmation on full
success, the fixed error message otherwise), never silence. -/
theorem handleSchedulingAction_isolation (o : Oracles) (p cid : String)
    (a : JValue) (st : PState) (d t : String)
    (hd : jStr? (jGet a "date") = some d)
    (ht : jStr? (jGet a "time") = some t)
    (herr : o.errorSendOk = true) :
    ∃ st1, handleSchedulingAction o p cid a st = Except.ok st1
      ∧ st1.sent.length = st.sent.length + 1
      ∧ st1.calendarCalls.length = st.calendarCalls.length + 1
      ∧ st1.emailCalls.length =
          st.emailCalls.length + (if o.calendarOk then 1 else 0) := by
  unfold handleSchedulingAction CandidateRepository.update
  rw [hd, ht]
  cases hc : o.calendarOk <;> cases he : o.emailOk <;>
    cases hca : st.candidates.any (fun c => c.id == cid) <;>
    cases huo : o.updateOk <;> cases hcs : o.confirmSendOk <;>
    · simp only [herr, hca]
      exact ⟨_, rfl, by simp, by simp, by simp⟩

/-- Witness for `handleSchedulingAction_isolation`: the concrete
calendar-failure environment on a well-formed action. -/
theorem handleSchedulingAction_isolation_witness :
    jStr? (jGet c2Action "date") = some "2025-03-01"
    ∧ jStr? (jGet c2Action "time") = some "10:00"
    ∧ c2OracleCalFail.errorSendOk = true
    ∧ (∃ st1, handleSchedulingAction c2OracleCalFail "+521" "cand" c2Action
          emptyPState = Except.ok st1
        ∧ st1.sent.length = emptyPState.sent.length + 1
        ∧ st1.calendarCalls.length = emptyPState.calendarCalls.length + 1
        ∧ st1.emailCalls.length = emptyPState.emailCalls.length +
            (if c2OracleCalFail.calendarOk then 1 else 0)) :=
  ⟨rfl, rfl, rfl,
    handleSchedulingAction_isolation c2OracleCalFail "+521" "cand" c2Action
      emptyPState "2025-03-01" "10:00" rfl rfl rfl⟩

/-- Counterexample to C2 as stated: with the calendar gateway throwing and
every send succeeding, the handler attempts no email call at all (the
single `catch` absorbs the calendar failure before the email line runs),
sending only the fixed error reply — against the claim that the email call
is still attempted. -/
theorem handleSchedulingAction_skips_email :
    (outState (handleSchedulingAction c2OracleCalFail "+521" "cand" c2Action
      emptyPState)).emailCalls = []
    ∧ (outState (handleSchedulingAction c2OracleCalFail "+521" "cand" c2Action
        emptyPState)).calendarCalls.length = 1
    ∧ (outState (handleSchedulingAction c2OracleCalFail "+521" "cand" c2Action
        emptyPState)).sent = [("+521", schedulingErrorText)] :=
  ⟨rfl, rfl, rfl⟩

theorem jsSplitAux_ne_nil (sep : Char) (l acc : List Char) :
    jsSplitAux sep l acc ≠ [] := by
  induction l generalizing acc with
  | nil => simp [jsSplitAux]
  | cons c rest ih =>
    unfold jsSplitAux
    split
    · simp
    · exact ih _

theorem jsSplit_cons (sep : Char) (s : String) :
    ∃ c0 rest, jsSplit sep s = c0 :: rest := by
  unfold jsSplit
  rcases hsplit : jsSplitAux sep s.data [] with _ | ⟨a, l⟩
  · exact absurd hsplit (jsSplitAux_ne_nil sep s.data [])
  · exact ⟨String.mk a, l.map String.mk, by simp⟩

/-- C10 (amended): the `??` fallbacks fire only on a missing array index,
and `split` always yields at least one component, so the year and hour
fallbacks (2024 and 9) are dead: year and hour are always `Number` of the
first component (`Number('')` is `0` for an empty component, not the
fallback).  The month, day and minute fallbacks do fire when their
component is absent (month and day default to 1, minute to 0), an absent
or null timezone defaults to `America/Mexico_City`, and no validation is
performed: whenever the action's date and time fields are strings, the
calendar gateway is called exactly once with precisely these computed
components. -/
theorem parseSchedule_defaults :
    (∀ (d t : String) (tzf : Option JValue),
      ∃ c0 rest, jsSplit '-' d = c0 :: rest
        ∧ (parseSchedule d t tzf).year = jsNumber c0)
    ∧ (∀ (d t : String) (tzf : Option JValue),
      ∃ c0 rest, jsSplit ':' t = c0 :: rest
        ∧ (parseSchedule d t tzf).hour = jsNumber c0)
    ∧ (∀ (d t : String) (tzf : Option JValue), (jsSplit '-' d).length = 1 →
        (parseSchedule d t tzf).month = some 1 ∧ (parseSchedule d t tzf).day = some 1)
    ∧ (∀ (d t : String) (tzf : Option JValue), (jsSplit '-' d).length = 2 →
        (parseSchedule d t tzf).day = some 1)
    ∧ (∀ (d t : String) (tzf : Option JValue), (jsSplit ':' t).length = 1 →
        (parseSchedule d t tzf).minute = some 0)
    ∧ (∀ (d t : String),
        (parseSchedule d t none).timezone = JValue.str "America/Mexico_City")
    ∧ (∀ (o : Oracles) (p cid : String) (action : JValue) (st : PState)
        (dstr tstr : String),
        jStr? (jGet action "date") = some dstr →
        jStr? (jGet action "time") = some tstr →
        (outState (handleSchedulingAction o p cid action st)).calendarCalls =
          st.calendarCalls ++
            [{ candidateId := cid,
               comps := parseSchedule dstr tstr (jGet action "timezone"),
               attendee := jGet action "candidateEmail" }]) := by
  refine ⟨?_, ?_, ?_, ?_, ?_, ?_, ?_⟩
  · intro d t tzf
    obtain ⟨c0, rest, hsplit⟩ := jsSplit_cons '-' d
    refine ⟨c0, rest, hsplit, ?_⟩
    simp [parseSchedule, hsplit]
  · intro d t tzf
    obtain ⟨c0, rest, hsplit⟩ := jsSplit_cons ':' t
    refine ⟨c0, rest, hsplit, ?_⟩
    simp [parseSchedule, hsplit]
  · intro d t tzf hlen
    obtain ⟨c0, hsplit⟩ := List.length_eq_one.mp hlen
    constructor <;> simp [parseSchedule, hsplit]
  · intro d t tzf hlen
    obtain ⟨c0, c1, hsplit⟩ := List.length_eq_two.mp hlen
    simp [parseSchedule, hsplit]
  · intro d t tzf hlen
    obtain ⟨c0, hsplit⟩ := List.length_eq_one.mp hlen
    simp [parseSchedule, hsplit]
  · intro d t
    simp [parseSchedule]
  · intro o p cid action st dstr tstr hd ht
    unfold handleSchedulingAction CandidateRepository.update outState
    rw [hd, ht]
    cases hc : o.calendarOk <;> cases he : o.emailOk <;>
      cases hca : st.candidates.any (fun c => c.id == cid) <;>
      cases huo : o.updateOk <;> cases hcs : o.confirmSendOk <;>
      cases hes : o.errorSendOk <;>
      · simp only [hca]
        simp

/-- Witness for `parseSchedule_defaults`: the month/day/minute defaults at
concrete incomplete inputs, and the calendar call for a concrete action. -/
theorem parseSchedule_defaults_witness :
    ((jsSplit '-' "2025").length = 1
      ∧ (parseSchedule "2025" "10" none).month = some 1
      ∧ (parseSchedule "2025" "10" none).day = some 1)
    ∧ ((jsSplit ':' "10").length = 1
      ∧ (parseSchedule "2025" "10" none).minute = some 0)
    ∧ (jStr? (jGet c2Action "date") = some "2025-03-01"
      ∧ jStr? (jGet c2Action "time") = some "10:00"
      ∧ (outState (handleSchedulingAction c2OracleCalFail "+521" "cand" c2Action
          emptyPState)).calendarCalls =
        emptyPState.calendarCalls ++
          [{ candidateId := "cand",
             comps := parseSchedule "2025-03-01" "10:00" (jGet c2Action "timezone"),
             attendee := jGet c2Action "candidateEmail" }]) := by
  refine ⟨⟨by decide, ?_, ?_⟩, ⟨by decide, ?_⟩, rfl, rfl, ?_⟩
  · exact (parseSchedule_defaults.2.2.1 "2025" "10" none (by decide)).1
  · exact (parseSchedule_defaults.2.2.1 "2025" "10" none (by decide)).2
  · exact parseSchedule_defaults.2.2.2.2.1 "2025" "10" none (by decide)
  · exact parseSchedule_defaults.2.2.2.2.2.2 c2OracleCalFail "+521" "cand" c2Action
      emptyPState "2025-03-01" "10:00" rfl rfl

/-- Counterexample to C10 as stated: an empty year component yields
`Number('') = 0`, not the claimed default 2024, and an empty hour
component yields `0`, not the claimed default 9 — `split` never returns an
empty array, so the `?? 2024` and `?? 9` fallbacks are unreachable. -/
theorem parseSchedule_dead_defaults :
    (parseSchedule "" "10:00" none).year = some 0
    ∧ (parseSchedule "" "10:00" none).year ≠ some 2024
    ∧ (parseSchedule "2025-03-01" "" none).hour = some 0
    ∧ (parseSchedule "2025-03-01" "" none).hour ≠ some 9 :=
  ⟨rfl, by decide, rfl, by decide⟩

/-- `handleSchedulingAction` never touches the persisted messages, the
model-call log, the lock store, the read marks, or the conversation store,
whichever way it exits. -/
theorem hsa_eq_preserves (o : Oracles) (p c : String) (a : JValue) (st : PState)
    (r : Except PState PState) (h : handleSchedulingAction o p c a st = r) :
    (outState r).messages = st.messages ∧ (outState r).modelCalls = st.modelCalls
    ∧ (outState r).locks = st.locks ∧ (outState r).markedRead = st.markedRead
    ∧ (outState r).convs = st.convs := h ▸ hsa_preserves o p c a st

/-- Processing a fresh message always persists exactly one inbound row for
it (followed only by outbound rows), records exactly one model invocation
tagged with whether this conversation's lock was held, and never touches
the lock store. -/
theorem processMessage_shape (maxHistory : Nat) (o : Oracles)
    (msg : ParsedWhatsAppMessage) (st : PState)
    (hne : MessageRepository.recordExists st.messages msg.messageId = false) :
    ∃ rows : List MessageRecord,
      (processMessage maxHistory o msg st).messages =
        st.messages ++
          mkInboundRow
            (CandidateRepository.findOrCreate st.candidates msg.fromAddr
              msg.fromName).1.id msg :: rows
      ∧ (∀ r ∈ rows, r.direction = MsgDirection.outbound)
      ∧ (processMessage maxHistory o msg st).modelCalls =
          st.modelCalls ++ [(st.locks.map Prod.fst).contains ("lock:" ++ msg.fromAddr)]
      ∧ (processMessage maxHistory o msg st).locks = st.locks := by
  unfold processMessage
  rw [hne]
  simp only [Bool.false_eq_true, if_false]
  cases hm : o.modelRaw with
  | error e =>
    dsimp only [AIService.generateRecruiterResponse]
    cases hfb : o.fallbackSendOk <;>
      exact ⟨[], by simp [mkInboundRow], by simp, by simp, by simp⟩
  | ok raw =>
    dsimp only [AIService.generateRecruiterResponse]
    cases hs : o.sendOk with
    | false =>
      cases hfb : o.fallbackSendOk <;>
        exact ⟨[], by simp [mkInboundRow], by simp, by simp, by simp⟩
    | true =>
      cases hact : (AIService.extractAction raw).2 with
      | none =>
        exact ⟨[mkOutboundRow
            (CandidateRepository.findOrCreate st.candidates msg.fromAddr
              msg.fromName).1.id o.sentId (AIService.extractAction raw).1],
          by simp [mkInboundRow, mkOutboundRow],
          by simp [mkOutboundRow], by simp, by simp⟩
      | some a =>
        simp only [Bool.not_true, Bool.false_eq_true, if_false]
        split
        next st1 heq =>
          obtain ⟨hmsg, hmc, hlk, hmr2, hcv2⟩ := hsa_eq_preserves _ _ _ _ _ _ heq
          simp only [outState] at hmsg hmc hlk
          refine ⟨[mkOutboundRow
              (CandidateRepository.findOrCreate st.candidates msg.fromAddr
                msg.fromName).1.id o.sentId (AIService.extractAction raw).1],
            ?_, by simp [mkOutboundRow], ?_, ?_⟩
          · simp [hmsg, mkInboundRow, mkOutboundRow]
          · simp [hmc]
          · simp [hlk]
        next s1 heq =>
          obtain ⟨hmsg, hmc, hlk, hmr2, hcv2⟩ := hsa_eq_preserves _ _ _ _ _ _ heq
          simp only [outState] at hmsg hmc hlk
          cases hfb : o.fallbackSendOk <;>
            · refine ⟨[mkOutboundRow
                (CandidateRepository.findOrCreate st.candidates msg.fromAddr
                  msg.fromName).1.id o.sentId (AIService.extractAction raw).1],
                ?_, by simp [mkOutboundRow], ?_, ?_⟩
              · simp [hmsg, mkInboundRow, mkOutboundRow]
              · simp [hmc]
              · simp [hlk]



/-- The dedup short-circuit: a message whose id is already persisted leaves
the whole pipeline state untouched, with no error. -/
theorem processMessage_of_exists (maxHistory : Nat) (o : Oracles)
    (msg : ParsedWhatsAppMessage) (st : PState)
    (h : MessageRepository.recordExists st.messages msg.messageId = true) :
    processMessage maxHistory o msg st = st := by
  unfold processMessage
  rw [h]
  rfl

theorem countInbound_eq_zero {msgs : List MessageRecord} {id : String}
    (h : MessageRepository.recordExists msgs id = false) :
    countInbound msgs id = 0 := by
  unfold MessageRepository.recordExists at h
  unfold countInbound
  rw [List.length_eq_zero, List.filter_eq_nil]
  intro m hm
  simp only [List.any_eq_false] at h
  have := h m hm
  simp_all

theorem countInbound_zero_of_outbound {rows : List MessageRecord} {id : String}
    (h : ∀ r ∈ rows, r.direction = MsgDirection.outbound) :
    countInbound rows id = 0 := by
  unfold countInbound
  rw [List.length_eq_zero, List.filter_eq_nil]
  intro m hm
  have := h m hm
  simp_all

theorem countInbound_append (a b : List MessageRecord) (id : String) :
    countInbound (a ++ b) id = countInbound a id + countInbound b id := by
  simp [countInbound, List.filter_append]

theorem countInbound_cons_inbound (cid : String) (msg : ParsedWhatsAppMessage)
    (rows : List MessageRecord) :
    countInbound (mkInboundRow cid msg :: rows) msg.messageId =
      1 + countInbound rows msg.messageId := by
  simp [countInbound, mkInboundRow, List.filter_cons]
  omega

/-- C5: if a message with the given externalId is already persisted,
processing stops right after the `exists` check with the state unchanged
and no error; and submitting the same externalId twice (fresh the first
time) yields exactly one persisted inbound record and exactly one model
invocation — the second run is a no-op. -/
theorem processMessage_dedup (maxHistory : Nat) (o o2 : Oracles)
    (msg : ParsedWhatsAppMessage) (st : PState) :
    (MessageRepository.recordExists st.messages msg.messageId = true →
      processMessage maxHistory o msg st = st)
    ∧ (MessageRepository.recordExists st.messages msg.messageId = false →
      processMessage maxHistory o2 msg (processMessage maxHistory o msg st) =
          processMessage maxHistory o msg st
        ∧ countInbound (processMessage maxHistory o msg st).messages msg.messageId = 1
        ∧ countInbound st.messages msg.messageId = 0
        ∧ (processMessage maxHistory o msg st).modelCalls.length =
            st.modelCalls.length + 1) := by
  constructor
  · exact processMessage_of_exists maxHistory o msg st
  · intro h
    obtain ⟨rows, hmsg, hdir, hmc, _⟩ := processMessage_shape maxHistory o msg st h
    have hex2 : MessageRepository.recordExists
        (processMessage maxHistory o msg st).messages msg.messageId = true := by
      rw [hmsg]
      simp [MessageRepository.recordExists, mkInboundRow]
    refine ⟨processMessage_of_exists maxHistory o2 msg _ hex2, ?_,
      countInbound_eq_zero h, ?_⟩
    · rw [hmsg, countInbound_append, countInbound_cons_inbound,
        countInbound_eq_zero h, countInbound_zero_of_outbound hdir]
    · rw [hmc]
      simp

/-- C1 (amended): the pipeline performs no lock operation at all — the
lock store is unchanged by `processMessage`, and the (at most one) model
invocation is tagged with the lock state the caller's store already had;
`withLock` exists in `MemoryService` but is never called by the pipeline,
so nothing serializes concurrent deliveries for the same sender. -/
theorem processMessage_no_lock (maxHistory : Nat) (o : Oracles)
    (msg : ParsedWhatsAppMessage) (st : PState) :
    (processMessage maxHistory o msg st).locks = st.locks
    ∧ ((processMessage maxHistory o msg st).modelCalls = st.modelCalls
      ∨ (processMessage maxHistory o msg st).modelCalls =
          st.modelCalls ++
            [(st.locks.map Prod.fst).contains ("lock:" ++ msg.fromAddr)]) := by
  cases hex : MessageRepository.recordExists st.messages msg.messageId with
  | true =>
    rw [processMessage_of_exists maxHistory o msg st hex]
    exact ⟨rfl, Or.inl rfl⟩
  | false =>
    obtain ⟨rows, _, _, hmc, hlk⟩ := processMessage_shape maxHistory o msg st hex
    exact ⟨hlk, Or.inr hmc⟩

theorem redisSlice_subset (l : List α) (a b : Int) : redisSlice l a b ⊆ l := by
  unfold redisSlice
  dsimp only
  split
  · exact List.nil_subset l
  · exact (List.take_subset _ _).trans (List.drop_subset _ _)

/-- C6: when the model invocation throws, the user is sent the fixed
fallback text verbatim and nothing else, the conversation store gains only
the user's turn (any assistant turn present afterwards was already there
before), exactly one model invocation was recorded (no retry), and only
the inbound row was persisted; `processMessage` is total, so no exception
escapes the handler. -/
theorem processMessage_model_fallback (maxHistory : Nat) (o : Oracles)
    (msg : ParsedWhatsAppMessage) (st : PState)
    (hne : MessageRepository.recordExists st.messages msg.messageId = false)
    (hmodel : o.modelRaw = Except.error ())
    (hfb : o.fallbackSendOk = true) :
    (processMessage maxHistory o msg st).sent =
        st.sent ++ [(msg.fromAddr, fallbackText)]
    ∧ (processMessage maxHistory o msg st).convs =
        MemoryService.addMessage maxHistory st.convs msg.fromAddr
          { role := .user, content := msg.content, timestamp := some msg.timestamp }
          o.now
    ∧ (∀ t ∈ (processMessage maxHistory o msg st).convs msg.fromAddr,
        t.role = Role.assistant → t ∈ st.convs msg.fromAddr)
    ∧ (processMessage maxHistory o msg st).modelCalls =
        st.modelCalls ++ [(st.locks.map Prod.fst).contains ("lock:" ++ msg.fromAddr)]
    ∧ (processMessage maxHistory o msg st).messages =
        st.messages ++ [mkInboundRow
          (CandidateRepository.findOrCreate st.candidates msg.fromAddr
            msg.fromName).1.id msg] := by
  have hred : (processMessage maxHistory o msg st).convs =
      MemoryService.addMessage maxHistory st.convs msg.fromAddr
        { role := .user, content := msg.content, timestamp := some msg.timestamp }
        o.now := by
    unfold processMessage
    rw [hne]
    simp only [Bool.false_eq_true, if_false]
    rw [hmodel]
    dsimp only [AIService.generateRecruiterResponse]
    rw [hfb]
    rfl
  refine ⟨?_, hred, ?_, ?_, ?_⟩
  · unfold processMessage
    rw [hne]
    simp only [Bool.false_eq_true, if_false]
    rw [hmodel]
    dsimp only [AIService.generateRecruiterResponse]
    rw [hfb]
    rfl
  · intro t ht hrole
    rw [hred] at ht
    unfold MemoryService.addMessage at ht
    simp only [if_pos rfl] at ht
    have hsub := redisSlice_subset _ _ _ ht
    rcases List.mem_append.mp hsub with hmem | hmem
    · exact hmem
    · simp only [List.mem_singleton] at hmem
      rw [hmem] at hrole
      simp at hrole
  · unfold processMessage
    rw [hne]
    simp only [Bool.false_eq_true, if_false]
    rw [hmodel]
    dsimp only [AIService.generateRecruiterResponse]
    rw [hfb]
    rfl
  · unfold processMessage
    rw [hne]
    simp only [Bool.false_eq_true, if_false]
    rw [hmodel]
    dsimp only [AIService.generateRecruiterResponse]
    rw [hfb]
    simp [mkInboundRow]



/-- Counterexample to C1 as stated: a fresh message processed against an
all-success environment invokes the model exactly once with no lock held
(`false` tag) and acquires no lock — `processMessage` contains no
`withLock` call, so the model is invoked for a conversation without
holding that conversation's lock. -/
theorem processMessage_no_lock_counterexample :
    (processMessage 20 c1Oracle c1Msg emptyPState).modelCalls = [false]
    ∧ (processMessage 20 c1Oracle c1Msg emptyPState).locks = [] :=
  ⟨rfl, rfl⟩

/-- Witness for `processMessage_dedup`: the fresh-then-duplicate scenario
at a concrete message and environment. -/
theorem processMessage_dedup_witness :
    MessageRepository.recordExists emptyPState.messages c5Msg.messageId = false
    ∧ (processMessage 20 c5Oracle c5Msg (processMessage 20 c5Oracle c5Msg emptyPState) =
        processMessage 20 c5Oracle c5Msg emptyPState
      ∧ countInbound (processMessage 20 c5Oracle c5Msg emptyPState).messages
          c5Msg.messageId = 1
      ∧ countInbound emptyPState.messages c5Msg.messageId = 0
      ∧ (processMessage 20 c5Oracle c5Msg emptyPState).modelCalls.length =
          emptyPState.modelCalls.length + 1) :=
  ⟨rfl, (processMessage_dedup 20 c5Oracle c5Oracle c5Msg emptyPState).2 rfl⟩

/-- Witness for `processMessage_model_fallback`: the model-failure
environment at a concrete message. -/
theorem processMessage_model_fallback_witness :
    MessageRepository.recordExists emptyPState.messages c6Msg.messageId = false
    ∧ c6Oracle.modelRaw = Except.error ()
    ∧ c6Oracle.fallbackSendOk = true
    ∧ (processMessage 20 c6Oracle c6Msg emptyPState).sent =
        emptyPState.sent ++ [(c6Msg.fromAddr, fallbackText)] :=
  ⟨rfl, rfl, rfl,
    (processMessage_model_fallback 20 c6Oracle c6Msg emptyPState rfl rfl rfl).1⟩

end WhatsAppBot
